import Mathlib

/-!
Verification of the schedule-parsing core of src/schedule_to_gcal_gui.py.

The Python source is shallowly embedded below.  Python strings are
List Char / String, Python ints are Int (with Nat for digit values),
`datetime` construction is modelled by an explicit validity check
(ValueError on failure), regular-expression matching is modelled by
hand-rolled matchers that follow the concrete patterns of the source,
including their greedy/backtracking behaviour, and the two Tk
collaborators are modelled as explicit inputs/outputs: the
simpledialog.askinteger month prompt as an Option Int parameter
(None models a cancelled dialog) and messagebox.showwarning as an
accumulated list of Notice records.  Exceptions escaping
parse_schedule are modelled by Except PyError.
-/

namespace FVRC

/-- Characters Python's str.strip / regex \s treat as whitespace (ASCII range;
the unicode whitespace characters are irrelevant to the inputs considered). -/
def isPySpace (c : Char) : Bool :=
  c == ' ' || c == '\t' || c == '\n' || c == '\r' || c == '\x0b' || c == '\x0c'

/-- Python str.strip(): drop leading and trailing whitespace. -/
def pyStrip (s : List Char) : List Char :=
  ((s.dropWhile isPySpace).reverse.dropWhile isPySpace).reverse

/-- Characters Python's regex \w matches (ASCII range). -/
def isWordChar (c : Char) : Bool :=
  c.isAlphanum || c == '_'

/-- Line-break characters recognized by Python str.splitlines (ASCII range;
the \r\n pair is handled separately in splitlinesAux). -/
def isLineBreak (c : Char) : Bool :=
  c == '\n' || c == '\r' || c == '\x0b' || c == '\x0c' ||
  c == '\x1c' || c == '\x1d' || c == '\x1e' || c == '\x85'

def splitlinesAux : List Char → List Char → List String
  | [], [] => []
  | [], acc => [String.mk acc.reverse]
  | '\r' :: '\n' :: rest, acc => String.mk acc.reverse :: splitlinesAux rest []
  | c :: rest, acc =>
    if isLineBreak c then String.mk acc.reverse :: splitlinesAux rest []
    else splitlinesAux rest (c :: acc)

/-- Python text.splitlines(). -/
def splitlinesPy (s : String) : List String :=
  splitlinesAux s.data []

/-- Digit value of a decimal digit character. -/
def digitVal (c : Char) : Nat :=
  c.toNat - 48

/-- Greedy \d{1,2}: take two digits if possible, else one, else fail;
returns the numeric value (int() of the digit string) and the rest. -/
def takeDigits2 : List Char → Option (Nat × List Char)
  | c1 :: c2 :: rest =>
    if c1.isDigit then
      if c2.isDigit then some (10 * digitVal c1 + digitVal c2, rest)
      else some (digitVal c1, c2 :: rest)
    else none
  | [c1] => if c1.isDigit then some (digitVal c1, []) else none
  | [] => none

/-- Greedy \d{0,2}: take up to two digits; returns the rest
(the digit values are never used by the stripping regex). -/
def dropDigits2 : List Char → List Char
  | c1 :: c2 :: rest =>
    if c1.isDigit then
      if c2.isDigit then rest else c2 :: rest
    else c1 :: c2 :: rest
  | other => if other.head?.any Char.isDigit then [] else other

/-- (:\d{2})? : a colon followed by exactly two digits; returns the minutes
value and the rest, or fails (the caller then treats the group as absent). -/
def takeColonMM : List Char → Option (Nat × List Char)
  | ':' :: d1 :: d2 :: rest =>
    if d1.isDigit && d2.isDigit then some (10 * digitVal d1 + digitVal d2, rest)
    else none
  | _ => none

/-- An am/pm marker as captured (then lowercased) by the source's regexes. -/
inductive Marker
  | am
  | pm
deriving DecidableEq

/-- (am|pm)? matched case-insensitively: returns the marker (if the next two
characters spell am or pm in any case) and the rest of the input. -/
def takeMarker : List Char → Option Marker × List Char
  | c1 :: c2 :: rest =>
    if c1.toLower == 'a' && c2.toLower == 'm' then (some Marker.am, rest)
    else if c1.toLower == 'p' && c2.toLower == 'm' then (some Marker.pm, rest)
    else (none, c1 :: c2 :: rest)
  | other => (none, other)

/-- One side of a time range as captured by the source's time regex:
the hour digits and the optional :MM minutes (to_24h defaults them to 0). -/
structure TimeTok where
  h : Nat
  m : Option Nat
deriving DecidableEq

/-- \d{1,2}(:\d{2})? — one time token. -/
def matchTimeTok (s : List Char) : Option (TimeTok × List Char) :=
  match takeDigits2 s with
  | none => none
  | some (h, rest) =>
    match takeColonMM rest with
    | some (m, rest2) => some (⟨h, some m⟩, rest2)
    | none => some (⟨h, none⟩, rest)

/-- re.match of the source's time_pattern
(\d{1,2}(:\d{2})?)\s*(am|pm)?\s*(?:-\s*(\d{1,2}(:\d{2})?)\s*(am|pm)?)?
against s (case-insensitive).  The trailing optional group is
all-or-nothing, exactly as regex backtracking makes it. -/
def matchTimePattern (s : List Char) :
    Option (TimeTok × Option Marker × Option (TimeTok × Option Marker)) :=
  match matchTimeTok s with
  | none => none
  | some (t1, r1) =>
    let r2 := r1.dropWhile isPySpace
    let (m1, r3) := takeMarker r2
    let r4 := r3.dropWhile isPySpace
    match r4 with
    | '-' :: r5 =>
      match matchTimeTok (r5.dropWhile isPySpace) with
      | some (t2, r7) =>
        let (m2, _) := takeMarker (r7.dropWhile isPySpace)
        some (t1, m1, some (t2, m2))
      | none => some (t1, m1, none)
    | _ => some (t1, m1, none)

/-- Zero-pad f-string field {n:02d} for the nonnegative values the source
produces. -/
def pad2 (n : Nat) : List Char :=
  if n < 10 then '0' :: (toString n).data else (toString n).data

/-- The source's inner helper to_24h: default minutes to 0, apply the
12-hour conversion if a marker is present, format as zero-padded digits. -/
def to_24h (t : TimeTok) (ampm : Option Marker) : String :=
  let m := t.m.getD 0
  let h :=
    match ampm with
    | some Marker.pm => if t.h ≠ 12 then t.h + 12 else t.h
    | some Marker.am => if t.h = 12 then 0 else t.h
    | none => t.h
  String.mk (pad2 h ++ ':' :: pad2 m)

/-- En-dash normalization: text.replace("–", "-"). -/
def normDash (c : Char) : Char :=
  if c == '–' then '-' else c

/-- The source's parse_time_range: normalize en-dashes, strip, match the
time pattern, convert each matched side independently with to_24h. -/
def parse_time_range (text : List Char) : Option String × Option String :=
  let t := text.map normDash
  match matchTimePattern (pyStrip t) with
  | none => (none, none)
  | some (t1, m1, rest) =>
    match rest with
    | some (t2, m2) => (some (to_24h t1 m1), some (to_24h t2 m2))
    | none => (some (to_24h t1 m1), none)

/-- \s+\w+(.*): at least one whitespace char, then at least one word char,
returning the (.*) remainder; fails otherwise. -/
def matchSpacesWordRest (s : List Char) : Option (List Char) :=
  match s with
  | c :: rest =>
    if isPySpace c then
      match rest.dropWhile isPySpace with
      | w :: rest3 =>
        if isWordChar w then some ((w :: rest3).dropWhile isWordChar) else none
      | [] => none
    else none
  | [] => none

/-- re.match of the day-header regex (\d{1,2})\s+\w+(.*): the day number and
the trailing (.*) capture.  The only regex backtracking point is retrying
with one digit when two digits are not followed by whitespace. -/
def matchDayHeader (s : List Char) : Option (Nat × List Char) :=
  match s with
  | c1 :: c2 :: rest =>
    if c1.isDigit then
      if c2.isDigit then
        match matchSpacesWordRest rest with
        | some tail => some (10 * digitVal c1 + digitVal c2, tail)
        | none =>
          match matchSpacesWordRest (c2 :: rest) with
          | some tail => some (digitVal c1, tail)
          | none => none
      else
        match matchSpacesWordRest (c2 :: rest) with
        | some tail => some (digitVal c1, tail)
        | none => none
    else none
  | _ => none

/-- re.match of (Jan|Feb|Mar|Apr|May|Jun|Jul|Aug|Sep|Oct|Nov|Dec) followed
by datetime.strptime(.., "%b").month: the month number when the line starts
with a three-letter English month abbreviation (case-sensitive). -/
def monthAbbrev (s : List Char) : Option Int :=
  match s with
  | c1 :: c2 :: c3 :: _ =>
    let w := [c1, c2, c3]
    if w = ['J', 'a', 'n'] then some 1
    else if w = ['F', 'e', 'b'] then some 2
    else if w = ['M', 'a', 'r'] then some 3
    else if w = ['A', 'p', 'r'] then some 4
    else if w = ['M', 'a', 'y'] then some 5
    else if w = ['J', 'u', 'n'] then some 6
    else if w = ['J', 'u', 'l'] then some 7
    else if w = ['A', 'u', 'g'] then some 8
    else if w = ['S', 'e', 'p'] then some 9
    else if w = ['O', 'c', 't'] then some 10
    else if w = ['N', 'o', 'v'] then some 11
    else if w = ['D', 'e', 'c'] then some 12
    else none
  | _ => none

/-- re.split(r'•|\s{2,}', line): split on a bullet or on a maximal run of
two or more whitespace characters.  acc is the reversed current segment,
pend is the reversed run of whitespace seen but not yet classified. -/
def splitAux : List Char → List Char → List Char → List (List Char)
  | [], acc, pend =>
    if pend.length ≥ 2 then [acc.reverse, []] else [(pend ++ acc).reverse]
  | c :: rest, acc, pend =>
    if isPySpace c then splitAux rest acc (c :: pend)
    else if c == '•' then
      if pend.length ≥ 2 then acc.reverse :: [] :: splitAux rest [] []
      else (pend ++ acc).reverse :: splitAux rest [] []
    else
      if pend.length ≥ 2 then acc.reverse :: splitAux rest [c] []
      else splitAux rest (c :: pend ++ acc) []

def splitItems (s : List Char) : List (List Char) :=
  splitAux s [] []

/-- Greedy match of the source's description-stripping regex
^(\d{1,2}(:\d{2})?\s*(am|pm)?\s*-?\s*\d{0,2}(:\d{2})?\s*(am|pm)?)\s*
(case-insensitive, applied to the raw fragment, no en-dash normalization):
returns the remainder after the match, or none when the fragment does not
start with a digit (re.sub then leaves it unchanged).  Every element after
the leading \d{1,2} is optional, so greedy matching never backtracks. -/
def stripTimeLead (s : List Char) : Option (List Char) :=
  match takeDigits2 s with
  | none => none
  | some (_, r1) =>
    let r2 := match takeColonMM r1 with
      | some (_, x) => x
      | none => r1
    let r3 := r2.dropWhile isPySpace
    let r4 := (takeMarker r3).2
    let r5 := r4.dropWhile isPySpace
    let r6 := match r5 with
      | '-' :: x => x
      | other => other
    let r7 := r6.dropWhile isPySpace
    let r8 := dropDigits2 r7
    let r9 := match takeColonMM r8 with
      | some (_, x) => x
      | none => r8
    let r10 := r9.dropWhile isPySpace
    let r11 := (takeMarker r10).2
    some (r11.dropWhile isPySpace)

/-! ## Dates -/

/-- Gregorian leap-year rule, as used by Python's datetime. -/
def isLeap (y : Int) : Bool :=
  (y % 4 == 0 && y % 100 != 0) || y % 400 == 0

def daysInMonth (y m : Int) : Int :=
  if m = 2 then (if isLeap y then 29 else 28)
  else if m = 4 ∨ m = 6 ∨ m = 9 ∨ m = 11 then 30
  else 31

/-- datetime(year, month, day) succeeds exactly on these triples
(datetime.MINYEAR = 1, datetime.MAXYEAR = 9999). -/
def validDate (y m d : Int) : Bool :=
  1 ≤ y && y ≤ 9999 && 1 ≤ m && m ≤ 12 && 1 ≤ d && d ≤ daysInMonth y m

structure Date where
  y : Int
  m : Int
  d : Int
deriving DecidableEq

/-- date + timedelta(days=1) on a valid date. -/
def addOneDay (dt : Date) : Date :=
  if dt.d + 1 ≤ daysInMonth dt.y dt.m then ⟨dt.y, dt.m, dt.d + 1⟩
  else if dt.m + 1 ≤ 12 then ⟨dt.y, dt.m + 1, 1⟩
  else ⟨dt.y + 1, 1, 1⟩

/-- {n:02d}-style padding for the Int fields of strftime("%m/%d/%Y"). -/
def padInt2 (n : Int) : List Char :=
  if 0 ≤ n ∧ n < 10 then '0' :: (toString n).data else (toString n).data

/-- %Y zero-padded to four digits. -/
def padInt4 (n : Int) : List Char :=
  let s := (toString n).data
  if 0 ≤ n ∧ s.length < 4 then List.replicate (4 - s.length) '0' ++ s else s

/-- current_date.strftime("%m/%d/%Y"). -/
def fmtDate (dt : Date) : String :=
  String.mk (padInt2 dt.m ++ '/' :: (padInt2 dt.d ++ '/' :: padInt4 dt.y))

/-! ## The schedule parser -/

/-- One output record of parse_schedule (the dict of source lines 111-120). -/
structure Event where
  subject : String
  startDate : String
  startTime : String
  endDate : String
  endTime : String
  allDay : String
  description : String
  location : String
deriving DecidableEq

/-- One messagebox.showwarning date-correction notification: the original
(month, day, year) and the corrected date shown to the user. -/
structure Notice where
  origMonth : Int
  origDay : Int
  origYear : Int
  corrected : Date
deriving DecidableEq

/-- Exceptions that can escape parse_schedule. -/
inductive PyError
  | indexError
  | typeError
  | valueError
deriving DecidableEq

/-- Python truthiness of an optional string (None and "" are falsy). -/
def pyTruthy : Option String → Bool
  | none => false
  | some s => s != ""

structure PState where
  current_date : Option Date
  last_day : Option Int
  events : List Event
  notices : List Notice
deriving DecidableEq

/-- The month used for a day header (source lines 72-78): start from
start_month and add one, wrapping past 12 to 1, when a previous day
number exists (and is truthy) and the new day is smaller. -/
def headerMonth (last_day : Option Int) (day : Int) (sm : Int) : Int :=
  let roll :=
    match last_day with
    | some ld => ld != 0 && day < ld
    | none => false
  if roll then (if sm + 1 > 12 then 1 else sm + 1) else sm

/-- The date-validation block (source lines 81-89): construct
datetime(year, month, day); on ValueError fall back to
datetime(year, month, 28) + timedelta(days=1) and emit a warning; a
ValueError raised by the fallback itself propagates. -/
def resolveDate (year month day : Int) : Except PyError (Date × Option Notice) :=
  if validDate year month day then Except.ok (⟨year, month, day⟩, none)
  else if validDate year month 28 then
    let cd := addOneDay ⟨year, month, 28⟩
    Except.ok (cd, some ⟨month, day, year, cd⟩)
  else Except.error PyError.valueError

/-- The Event dict appended at source lines 111-120, given the current
date, the computed description and the parsed time pair. -/
def mkRecord (cd : Date) (desc : List Char) (st et : Option String) : Event :=
  { subject := String.mk desc
    startDate := fmtDate cd
    startTime := if pyTruthy st then st.getD "" else ""
    endDate := if pyTruthy et then fmtDate cd else ""
    endTime := if pyTruthy et then et.getD "" else ""
    allDay := if pyTruthy st then "False" else "True"
    description := ""
    location := "" }

/-- Source lines 102-120: build one Event from one fragment of a line. -/
def processItem (cd : Date) (item0 : List Char) (events : List Event) :
    List Event :=
  let item := pyStrip item0
  if item = [] then events
  else
    let st := (parse_time_range item).1
    let et := (parse_time_range item).2
    let desc0 :=
      match stripTimeLead item with
      | some r => pyStrip r
      | none => pyStrip item
    let desc := if desc0 = [] then item else desc0
    events ++ [mkRecord cd desc st et]

def processItems (cd : Date) (line : List Char) (events : List Event) :
    List Event :=
  (splitItems line).foldl (fun evs item => processItem cd item evs) events

/-- Source lines 69-95: handle a matched day header.  start_month = None
(a cancelled month prompt) raises TypeError at datetime construction. -/
def processHeader (year : Int) (sm : Option Int) (st : PState)
    (day : Int) (restC : List Char) : Except PyError PState :=
  match sm with
  | none => Except.error PyError.typeError
  | some m =>
    let month := headerMonth st.last_day day m
    match resolveDate year month day with
    | Except.error e => Except.error e
    | Except.ok (cd, n) =>
      let st1 : PState :=
        { st with current_date := some cd
                  last_day := some day
                  notices := st.notices ++ n.toList }
      let trailing := pyStrip restC
      if trailing = [] then Except.ok st1
      else Except.ok { st1 with events := processItems cd trailing st1.events }

/-- One iteration of the main loop (source lines 62-120). -/
def processLine (year : Int) (sm : Option Int) (st : PState)
    (rawLine : String) : Except PyError PState :=
  let line := pyStrip rawLine.data
  if line = [] then Except.ok st
  else if line.head? = some '*' then Except.ok st
  else
    match matchDayHeader line with
    | some (dayN, restC) => processHeader year sm st (dayN : Int) restC
    | none =>
      match st.current_date with
      | none => Except.ok st
      | some cd => Except.ok { st with events := processItems cd line st.events }

def runLines (year : Int) (sm : Option Int) :
    PState → List String → Except PyError PState
  | st, [] => Except.ok st
  | st, l :: rest =>
    match processLine year sm st l with
    | Except.error e => Except.error e
    | Except.ok st2 => runLines year sm st2 rest

/-- The main loop run over all lines from the initial state. -/
def coreRun (year : Int) (sm : Option Int) (lines : List String) :
    Except PyError (List Event × List Notice) :=
  match runLines year sm ⟨none, none, [], []⟩ lines with
  | Except.error e => Except.error e
  | Except.ok st => Except.ok (st.events, st.notices)

/-- The source's parse_schedule(text, year).  prompt models the return
value of simpledialog.askinteger, consulted only when the first line does
not start with a month abbreviation; an empty lines list makes lines[0]
raise IndexError. -/
def parse_schedule (text : String) (year : Int) (prompt : Option Int) :
    Except PyError (List Event × List Notice) :=
  match splitlinesPy text with
  | [] => Except.error PyError.indexError
  | first :: rest =>
    let sm : Option Int :=
      match monthAbbrev (pyStrip first.data) with
      | some m => some m
      | none => prompt
    coreRun year sm (first :: rest)

/-- Checker for the spec's output format contract: a zero-padded 24-hour
HH:MM clock time with hour below 24 and minutes below 60. -/
def isValid24h (s : String) : Bool :=
  match s.data with
  | [h1, h2, c, m1, m2] =>
    h1.isDigit && h2.isDigit && c == ':' && m1.isDigit && m2.isDigit &&
    10 * digitVal h1 + digitVal h2 < 24 && 10 * digitVal m1 + digitVal m2 < 60
  | _ => false

/-! ## Helper lemmas -/

theorem mk_ne_empty {l : List Char} (h : l ≠ []) : String.mk l ≠ "" := by
  intro he
  apply h
  have h2 : (String.mk l).data = ("" : String).data := by rw [he]
  exact h2

theorem getD_ne_of_truthy {o : Option String} (h : pyTruthy o = true) :
    o.getD "" ≠ "" := by
  cases o with
  | none => simp [pyTruthy] at h
  | some s => simpa [pyTruthy] using h

theorem fmtDate_ne_empty (dt : Date) : fmtDate dt ≠ "" := by
  apply mk_ne_empty
  simp

/-- validDate unpacked into its arithmetic components. -/
theorem validDate_bounds {y m d : Int} (h : validDate y m d = true) :
    1 ≤ y ∧ y ≤ 9999 ∧ 1 ≤ m ∧ m ≤ 12 ∧ 1 ≤ d ∧ d ≤ daysInMonth y m := by
  simp only [validDate, Bool.and_eq_true, decide_eq_true_eq] at h
  exact ⟨h.1.1.1.1.1, h.1.1.1.1.2, h.1.1.1.2, h.1.1.2, h.1.2, h.2⟩

theorem daysInMonth_twelve (y : Int) : daysInMonth y 12 = 31 := by
  norm_num [daysInMonth]

/-- Within 1..12, only February can have fewer than 29 days. -/
theorem month_of_short {y m : Int} (h1 : 1 ≤ m) (h2 : m ≤ 12)
    (h : ¬ 29 ≤ daysInMonth y m) : m = 2 := by
  by_contra hne
  apply h
  have : daysInMonth y m = 30 ∨ daysInMonth y m = 31 := by
    interval_cases m <;> simp_all [daysInMonth]
  omega

/-- The year of the corrected date "the 28th plus one day" is the input
year whenever datetime(y, m, 28) was constructible. -/
theorem addOneDay_28_y (y m : Int) (h : validDate y m 28 = true) :
    (addOneDay ⟨y, m, 28⟩).y = y := by
  obtain ⟨-, -, hm1, hm2, -, -⟩ := validDate_bounds h
  by_cases hd : (29 : Int) ≤ daysInMonth y m
  · simp [addOneDay, hd, show (28 : Int) + 1 ≤ daysInMonth y m by omega]
  · have hm12 : m + 1 ≤ 12 := by
      by_contra hc
      have h12 : m = 12 := by omega
      rw [h12, daysInMonth_twelve] at hd
      omega
    simp [addOneDay, hd, hm12, show ¬ (28 : Int) + 1 ≤ daysInMonth y m by omega]

theorem resolveDate_ok_y {y m d : Int} {dt : Date} {n : Option Notice}
    (h : resolveDate y m d = Except.ok (dt, n)) : dt.y = y := by
  unfold resolveDate at h
  split_ifs at h with h1 h2
  · simp only [Except.ok.injEq, Prod.mk.injEq] at h
    rw [← h.1]
  · simp only [Except.ok.injEq, Prod.mk.injEq] at h
    rw [← h.1]
    exact addOneDay_28_y y m h2

/-! ## Claims -/

/-- C1, counterexample.  The claim says an invalid day number resolves to
the 1st of the following month.  On "31" under April (a 30-day month) the
code resolves to April 29 (the 28th plus one day), not May 1. -/
theorem C1_counterexample :
    parse_schedule "Apr\n31 Mon  Game" 2026 none =
      Except.ok ([⟨"Game", "04/29/2026", "", "", "", "True", "", ""⟩],
                 [⟨4, 31, 2026, ⟨2026, 4, 29⟩⟩]) ∧
    (⟨2026, 4, 29⟩ : Date) ≠ ⟨2026, 5, 1⟩ :=
  ⟨rfl, by decide⟩

/-- C1, amended: for a day header whose (year, month, day) is not a valid
date (while the 28th of that month is constructible), the parser resolves
the date to the 28th of the working month plus one day — the 29th of the
same month when it has at least 29 days, otherwise the 1st of the
following month, which can only happen for February — and emits a
correction notification. -/
theorem C1_theorem (y m d : Int) (h28 : validDate y m 28 = true)
    (hbad : validDate y m d = false) :
    resolveDate y m d =
      Except.ok (addOneDay ⟨y, m, 28⟩,
                 some ⟨m, d, y, addOneDay ⟨y, m, 28⟩⟩) ∧
    addOneDay ⟨y, m, 28⟩ =
      (if 29 ≤ daysInMonth y m then (⟨y, m, 29⟩ : Date) else ⟨y, m + 1, 1⟩) ∧
    (¬ 29 ≤ daysInMonth y m → m = 2) := by
  obtain ⟨-, -, hm1, hm2, -, -⟩ := validDate_bounds h28
  refine ⟨?_, ?_, fun h => month_of_short hm1 hm2 h⟩
  · simp [resolveDate, hbad, h28]
  · by_cases hge : (29 : Int) ≤ daysInMonth y m
    · simp [addOneDay, hge, show (28 : Int) + 1 ≤ daysInMonth y m by omega]
    · have hm12 : m + 1 ≤ 12 := by
        have h2 : m = 2 := month_of_short hm1 hm2 hge
        omega
      simp [addOneDay, hge, hm12,
            show ¬ (28 : Int) + 1 ≤ daysInMonth y m by omega]

theorem C1_witness :
    resolveDate 2026 4 31 =
      Except.ok (addOneDay ⟨2026, 4, 28⟩,
                 some ⟨4, 31, 2026, addOneDay ⟨2026, 4, 28⟩⟩) ∧
    addOneDay ⟨2026, 4, 28⟩ = ⟨2026, 4, 29⟩ := by
  have h := C1_theorem 2026 4 31 (by decide) (by decide)
  exact ⟨h.1, h.2.1.trans (by decide)⟩

/-- C7: the claim that every emitted non-empty time field is a valid
zero-padded 24-hour HH:MM clock time fails: a fragment whose leading
digits exceed 23 is emitted verbatim, here Start Time "99:00". -/
theorem C7_theorem :
    parse_schedule "Jan\n1 Mon  99 problems" 2026 none =
      Except.ok ([⟨"problems", "01/01/2026", "99:00", "", "", "False", "", ""⟩],
                 []) ∧
    isValid24h "99:00" = false :=
  ⟨rfl, rfl⟩

/-- C8: the claim that parse_schedule never raises fails on empty text:
splitlines of "" is empty and the subscript lines[0] raises IndexError. -/
theorem C8_theorem :
    parse_schedule "" 2026 none = Except.error PyError.indexError :=
  rfl

/-- C4, counterexample.  The claim says Subject stripping uses the same
lexical pattern as the Time Range Parser, including en-dash normalization.
On the fragment "9–10pm Game" (en-dash) the time parser recognizes the
range (start 09:00, end 22:00), but the stripping regex, applied to the
raw fragment, removes only the "9", leaving Subject "–10pm Game" instead
of "Game". -/
theorem C4_counterexample :
    parse_schedule "Jan\n23 Mon  9–10pm Game" 2026 none =
      Except.ok ([⟨"–10pm Game", "01/23/2026", "09:00", "01/23/2026", "22:00",
                   "False", "", ""⟩], []) ∧
    ("–10pm Game" : String) ≠ "Game" :=
  ⟨rfl, by decide⟩

/-- C9, counterexample.  The claim says the month is inferred from the
first non-empty line and the prompt is consulted only when that fails.
With a leading blank line, "Jan" is the first non-empty line and starts
with a month abbreviation, yet the result depends on the prompt value:
the prompt was consulted anyway, because the code only looks at lines[0]. -/
theorem C9_counterexample :
    monthAbbrev (pyStrip "Jan".data) = some 1 ∧
    parse_schedule "\nJan\n23 Mon  Practice" 2026 (some 5) =
      Except.ok ([⟨"Practice", "05/23/2026", "", "", "", "True", "", ""⟩], []) ∧
    parse_schedule "\nJan\n23 Mon  Practice" 2026 (some 1) =
      Except.ok ([⟨"Practice", "01/23/2026", "", "", "", "True", "", ""⟩], []) :=
  ⟨rfl, rfl, rfl⟩

/-- C10: the month assigned to a day header is always either startMonth or
startMonth plus one wrapped past 12 to 1, never more; a header whose day
is not smaller than its predecessor's gets plain startMonth again.  The
increment never accumulates because headerMonth recomputes the month from
the unchanged startMonth at every header. -/
theorem C10_theorem :
    (∀ ld day sm : Int, headerMonth (some ld) day sm = sm ∨
        headerMonth (some ld) day sm = (if sm + 1 > 12 then 1 else sm + 1)) ∧
    (∀ day sm : Int, headerMonth none day sm = sm) ∧
    (∀ ld day sm : Int, ¬ day < ld → headerMonth (some ld) day sm = sm) := by
  refine ⟨?_, fun day sm => rfl, ?_⟩
  · intro ld day sm
    by_cases h : (ld != 0 && decide (day < ld)) = true
    · right; simp only [headerMonth, h, if_true]
    · left; simp only [headerMonth, h, if_false, Bool.not_eq_true] at *
      simp [h]
  · intro ld day sm h
    simp [headerMonth, h]

theorem C10_witness :
    headerMonth (some 5) 7 3 = 3 ∧ headerMonth none 7 3 = 3 ∧
    (headerMonth (some 9) 7 12 = 12 ∨
      headerMonth (some 9) 7 12 = (if (12 : Int) + 1 > 12 then 1 else 12 + 1)) := by
  have h := C10_theorem
  exact ⟨h.2.2 5 7 3 (by decide), h.2.1 7 3, h.1 9 7 12⟩

/-- C5: when a header's day number is smaller than the previous header's
day number, the header's month is startMonth + 1, wrapping 13 to 1, and
the resulting current date keeps the caller's year: the year is never
incremented on wrap. -/
theorem C5_theorem (year sm ld day : Int) (st : PState) (restC : List Char)
    (hld : st.last_day = some ld) (h0 : 0 ≤ day) (hlt : day < ld) :
    headerMonth st.last_day day sm = (if sm + 1 > 12 then 1 else sm + 1) ∧
    ∀ st2 cd, processHeader year (some sm) st day restC = Except.ok st2 →
      st2.current_date = some cd → cd.y = year := by
  constructor
  · have hne : ld ≠ 0 := by omega
    simp [headerMonth, hld, hne, hlt]
  · intro st2 cd hok hcd
    cases hres : resolveDate year (headerMonth st.last_day day sm) day with
    | error e => simp only [processHeader, hres] at hok; cases hok
    | ok p =>
      obtain ⟨dt, n⟩ := p
      simp only [processHeader, hres] at hok
      have hy := resolveDate_ok_y hres
      split_ifs at hok <;>
        · cases hok
          simp only at hcd
          cases hcd
          exact hy

theorem C5_witness :
    headerMonth (PState.last_day ⟨none, some 28, [], []⟩) 1 12 = 1 ∧
    Date.y ⟨2026, 1, 1⟩ = 2026 := by
  have h := C5_theorem 2026 12 28 1 ⟨none, some 28, [], []⟩ [] rfl
    (by decide) (by decide)
  exact ⟨h.1.trans (by decide),
         h.2 ⟨some ⟨2026, 1, 1⟩, some 1, [], []⟩ ⟨2026, 1, 1⟩ rfl rfl⟩

/-- C2: when a day header's (year, month, day) triple is not a valid
calendar date (and the fallback 28th is constructible), the parser sets
the current date to the 28th of that month plus one day, records a
non-fatal notification carrying the original month/day/year and the
corrected date, updates last_day, and returns successfully so that
parsing continues. -/
theorem C2_theorem (year m day : Int) (st : PState) (restC : List Char)
    (hbad : validDate year (headerMonth st.last_day day m) day = false)
    (h28 : validDate year (headerMonth st.last_day day m) 28 = true) :
    ∃ st2, processHeader year (some m) st day restC = Except.ok st2 ∧
      st2.current_date =
        some (addOneDay ⟨year, headerMonth st.last_day day m, 28⟩) ∧
      st2.notices = st.notices ++
        [⟨headerMonth st.last_day day m, day, year,
          addOneDay ⟨year, headerMonth st.last_day day m, 28⟩⟩] ∧
      st2.last_day = some day := by
  have hres : resolveDate year (headerMonth st.last_day day m) day =
      Except.ok (addOneDay ⟨year, headerMonth st.last_day day m, 28⟩,
        some ⟨headerMonth st.last_day day m, day, year,
              addOneDay ⟨year, headerMonth st.last_day day m, 28⟩⟩) := by
    simp [resolveDate, hbad, h28]
  by_cases htr : pyStrip restC = []
  · refine ⟨{ st with
        current_date := some (addOneDay ⟨year, headerMonth st.last_day day m, 28⟩)
        last_day := some day
        notices := st.notices ++
          [⟨headerMonth st.last_day day m, day, year,
            addOneDay ⟨year, headerMonth st.last_day day m, 28⟩⟩] },
      ?_, rfl, rfl, rfl⟩
    simp only [processHeader, hres, htr, if_true]
    rfl
  · refine ⟨{ st with
        current_date := some (addOneDay ⟨year, headerMonth st.last_day day m, 28⟩)
        last_day := some day
        events := processItems (addOneDay ⟨year, headerMonth st.last_day day m, 28⟩)
          (pyStrip restC) st.events
        notices := st.notices ++
          [⟨headerMonth st.last_day day m, day, year,
            addOneDay ⟨year, headerMonth st.last_day day m, 28⟩⟩] },
      ?_, rfl, rfl, rfl⟩
    simp only [processHeader, hres, htr, if_false]
    rfl

theorem C2_witness :
    ∃ st2, processHeader 2026 (some 4) ⟨none, none, [], []⟩ 31 [] =
        Except.ok st2 ∧
      st2.current_date = some (addOneDay ⟨2026, headerMonth none 31 4, 28⟩) ∧
      st2.notices = [] ++ [⟨headerMonth none 31 4, 31, 2026,
                            addOneDay ⟨2026, headerMonth none 31 4, 28⟩⟩] ∧
      st2.last_day = some 31 :=
  C2_theorem 2026 4 31 ⟨none, none, [], []⟩ [] (by decide) (by decide)

/-- C3: parse_time_range converts each side of a matched range to 24-hour
form independently with to_24h; to_24h applies pm/am conversion only when
that side carries a marker and otherwise uses the digits as a literal
24-hour value; and the quoted examples evaluate as claimed, in particular
"9-10pm" gives start "09:00", not "21:00". -/
theorem C3_theorem :
    parse_time_range ("9-10pm".data) = (some "09:00", some "22:00") ∧
    parse_time_range ("10am-11:30am".data) = (some "10:00", some "11:30") ∧
    parse_time_range ("14:00".data) = (some "14:00", none) ∧
    (∀ (t1 t2 : TimeTok) (m1 m2 : Option Marker) (s : List Char),
      matchTimePattern (pyStrip (s.map normDash)) =
          some (t1, m1, some (t2, m2)) →
      parse_time_range s = (some (to_24h t1 m1), some (to_24h t2 m2))) ∧
    (∀ (t1 : TimeTok) (m1 : Option Marker) (s : List Char),
      matchTimePattern (pyStrip (s.map normDash)) = some (t1, m1, none) →
      parse_time_range s = (some (to_24h t1 m1), none)) ∧
    (∀ t : TimeTok, to_24h t none =
      String.mk (pad2 t.h ++ ':' :: pad2 (t.m.getD 0))) ∧
    (∀ t : TimeTok, to_24h t (some Marker.pm) =
      String.mk (pad2 (if t.h = 12 then 12 else t.h + 12) ++ ':' ::
                 pad2 (t.m.getD 0))) ∧
    (∀ t : TimeTok, to_24h t (some Marker.am) =
      String.mk (pad2 (if t.h = 12 then 0 else t.h) ++ ':' ::
                 pad2 (t.m.getD 0))) := by
  refine ⟨rfl, rfl, rfl, ?_, ?_, fun t => rfl, ?_, ?_⟩
  · intro t1 t2 m1 m2 s h
    simp [parse_time_range, h]
  · intro t1 m1 s h
    simp [parse_time_range, h]
  · intro t
    by_cases h : t.h = 12 <;> simp [to_24h, h]
  · intro t
    by_cases h : t.h = 12 <;> simp [to_24h, h]

theorem C3_witness :
    parse_time_range ("9 - 10:15PM".data) = (some "09:00", some "22:15") := by
  have h := C3_theorem
  exact (h.2.2.2.1 ⟨9, none⟩ ⟨10, some 15⟩ none (some Marker.pm)
    ("9 - 10:15PM".data) rfl).trans (by rfl)

/-- C9, amended: startMonth is derived from a three-letter month
abbreviation at the start of the first line of the input — even when that
line is blank and a later line would carry the abbreviation — and the
external month prompt is consulted exactly when the first line does not
start with such an abbreviation. -/
theorem C9_theorem (text : String) (year : Int) (p q : Option Int)
    (first : String) (rest : List String)
    (hsplit : splitlinesPy text = first :: rest) :
    ((monthAbbrev (pyStrip first.data)).isSome →
      parse_schedule text year p = parse_schedule text year q) ∧
    (monthAbbrev (pyStrip first.data) = none →
      parse_schedule text year p = coreRun year p (first :: rest)) := by
  constructor
  · intro h
    obtain ⟨m, hm⟩ := Option.isSome_iff_exists.mp h
    simp [parse_schedule, hsplit, hm]
  · intro h
    simp [parse_schedule, hsplit, h]

theorem C9_witness :
    parse_schedule "Jan" 2026 (some 3) = parse_schedule "Jan" 2026 (some 7) := by
  have h := C9_theorem "Jan" 2026 (some 3) (some 7) "Jan" [] rfl
  exact h.1 (by decide)

/-- C4, amended: for every non-empty fragment, the Subject of the
resulting Event is the fragment with its leading time-like text removed
by the dedicated stripping pattern, which is applied to the raw fragment
without en-dash normalization and is not the Time Range Parser's pattern;
if that stripping leaves an empty string, the Subject falls back to the
original untouched fragment. -/
theorem C4_theorem (cd : Date) (item0 : List Char) (evs : List Event)
    (hstr : pyStrip item0 = item0) (hne : item0 ≠ []) :
    ∃ ev, processItem cd item0 evs = evs ++ [ev] ∧
      (stripTimeLead item0 = none → ev.subject = String.mk item0) ∧
      (∀ r, stripTimeLead item0 = some r → pyStrip r ≠ [] →
        ev.subject = String.mk (pyStrip r)) ∧
      (∀ r, stripTimeLead item0 = some r → pyStrip r = [] →
        ev.subject = String.mk item0) := by
  cases hcase : stripTimeLead item0 with
  | none =>
    refine ⟨mkRecord cd item0 (parse_time_range item0).1
        (parse_time_range item0).2, ?_, fun _ => rfl, ?_, ?_⟩
    · simp [processItem, hstr, hcase, hne]
    · intro r hr
      cases hr
    · intro r hr
      cases hr
  | some r0 =>
    by_cases hr0 : pyStrip r0 = []
    · refine ⟨mkRecord cd item0 (parse_time_range item0).1
          (parse_time_range item0).2, ?_, ?_, ?_, ?_⟩
      · simp [processItem, hstr, hcase, hne, hr0]
      · intro h; cases h
      · intro r hr
        cases hr
        intro hc
        exact absurd hr0 hc
      · intro r hr hre
        exact rfl
    · refine ⟨mkRecord cd (pyStrip r0) (parse_time_range item0).1
          (parse_time_range item0).2, ?_, ?_, ?_, ?_⟩
      · simp [processItem, hstr, hcase, hne, hr0]
      · intro h; cases h
      · intro r hr hre
        cases hr
        exact rfl
      · intro r hr hre
        cases hr
        exact absurd hre hr0

theorem C4_witness :
    ∃ ev, processItem ⟨2026, 1, 23⟩ ("9-10pm Game".data) [] = [] ++ [ev] ∧
      (stripTimeLead ("9-10pm Game".data) = none →
        ev.subject = String.mk ("9-10pm Game".data)) ∧
      (∀ r, stripTimeLead ("9-10pm Game".data) = some r → pyStrip r ≠ [] →
        ev.subject = String.mk (pyStrip r)) ∧
      (∀ r, stripTimeLead ("9-10pm Game".data) = some r → pyStrip r = [] →
        ev.subject = String.mk ("9-10pm Game".data)) :=
  C4_theorem ⟨2026, 1, 23⟩ ("9-10pm Game".data) [] (by decide) (by decide)

/-- The per-Event shape invariant of the output rows. -/
def eventInv (e : Event) : Prop :=
  (e.allDay = "True" ↔ e.startTime = "") ∧ (e.endDate ≠ "" ↔ e.endTime ≠ "")

theorem eventInv_mkRecord (cd : Date) (desc : List Char)
    (st et : Option String) : eventInv (mkRecord cd desc st et) := by
  constructor
  · by_cases hst : pyTruthy st = true
    · simp only [mkRecord, hst, if_true]
      exact iff_of_false (by decide) (getD_ne_of_truthy hst)
    · simp only [mkRecord, hst, if_false, Bool.not_eq_true] at *
      simp [hst]
  · by_cases het : pyTruthy et = true
    · simp only [mkRecord, het, if_true]
      exact iff_of_true (fmtDate_ne_empty cd) (getD_ne_of_truthy het)
    · simp only [mkRecord, het, if_false, Bool.not_eq_true] at *
      simp [het]

theorem eventInv_processItem (cd : Date) (item : List Char)
    (evs : List Event) (h : ∀ e ∈ evs, eventInv e) :
    ∀ e ∈ processItem cd item evs, eventInv e := by
  unfold processItem
  by_cases hi : pyStrip item = []
  · simpa [hi] using h
  · simp only [hi, if_false]
    intro e he
    rw [List.mem_append] at he
    cases he with
    | inl h1 => exact h e h1
    | inr h2 =>
      rw [List.mem_singleton] at h2
      subst h2
      exact eventInv_mkRecord cd _ _ _

theorem eventInv_foldl (cd : Date) (items : List (List Char))
    (evs : List Event) (h : ∀ e ∈ evs, eventInv e) :
    ∀ e ∈ items.foldl (fun a i => processItem cd i a) evs, eventInv e := by
  induction items generalizing evs with
  | nil => simpa using h
  | cons i rest ih => exact ih _ (eventInv_processItem cd i evs h)

theorem eventInv_processItems (cd : Date) (line : List Char)
    (evs : List Event) (h : ∀ e ∈ evs, eventInv e) :
    ∀ e ∈ processItems cd line evs, eventInv e :=
  eventInv_foldl cd (splitItems line) evs h

theorem eventInv_processHeader {year : Int} {sm : Option Int} {st : PState}
    {day : Int} {restC : List Char} {st2 : PState}
    (hok : processHeader year sm st day restC = Except.ok st2)
    (h : ∀ e ∈ st.events, eventInv e) : ∀ e ∈ st2.events, eventInv e := by
  cases sm with
  | none => simp [processHeader] at hok
  | some m =>
    cases hres : resolveDate year (headerMonth st.last_day day m) day with
    | error e => simp only [processHeader, hres] at hok; cases hok
    | ok p =>
      obtain ⟨cd, n⟩ := p
      simp only [processHeader, hres] at hok
      split_ifs at hok <;> cases hok
      · exact h
      · exact eventInv_processItems cd _ _ h

theorem eventInv_processLine {year : Int} {sm : Option Int} {st : PState}
    {l : String} {st2 : PState}
    (hok : processLine year sm st l = Except.ok st2)
    (h : ∀ e ∈ st.events, eventInv e) : ∀ e ∈ st2.events, eventInv e := by
  simp only [processLine] at hok
  split_ifs at hok with h1 h2
  · cases hok; exact h
  · cases hok; exact h
  · cases hhd : matchDayHeader (pyStrip l.data) with
    | some p =>
      rw [hhd] at hok
      exact eventInv_processHeader hok h
    | none =>
      rw [hhd] at hok
      cases hcd : st.current_date with
      | none => rw [hcd] at hok; cases hok; exact h
      | some cd =>
        rw [hcd] at hok
        cases hok
        exact eventInv_processItems cd _ _ h

theorem eventInv_runLines {year : Int} {sm : Option Int}
    {lines : List String} {st st2 : PState}
    (hok : runLines year sm st lines = Except.ok st2)
    (h : ∀ e ∈ st.events, eventInv e) : ∀ e ∈ st2.events, eventInv e := by
  induction lines generalizing st with
  | nil =>
    simp only [runLines] at hok
    cases hok
    exact h
  | cons l rest ih =>
    simp only [runLines] at hok
    cases hline : processLine year sm st l with
    | error e => rw [hline] at hok; cases hok
    | ok stMid =>
      rw [hline] at hok
      exact ih hok (eventInv_processLine hline h)

/-- C6: every Event emitted by parse_schedule has All Day Event equal to
"True" exactly when Start Time is empty, and a populated End Date exactly
when End Time is populated. -/
theorem C6_theorem (text : String) (year : Int) (prompt : Option Int)
    (evs : List Event) (ns : List Notice)
    (h : parse_schedule text year prompt = Except.ok (evs, ns)) :
    ∀ e ∈ evs, (e.allDay = "True" ↔ e.startTime = "") ∧
      (e.endDate ≠ "" ↔ e.endTime ≠ "") := by
  have hcore : ∃ sm lines, coreRun year sm lines = Except.ok (evs, ns) := by
    unfold parse_schedule at h
    cases hsplit : splitlinesPy text with
    | nil => rw [hsplit] at h; cases h
    | cons first rest =>
      rw [hsplit] at h
      exact ⟨_, _, h⟩
  obtain ⟨sm, lines, hc⟩ := hcore
  unfold coreRun at hc
  cases hrun : runLines year sm ⟨none, none, [], []⟩ lines with
  | error e => rw [hrun] at hc; cases hc
  | ok st =>
    rw [hrun] at hc
    injection hc with h2
    injection h2 with h3 h4
    subst h3
    exact eventInv_runLines hrun (by intro e he; cases he)

theorem C6_witness :
    (Event.allDay ⟨"Practice", "01/23/2026", "10:00", "01/23/2026", "11:00",
        "False", "", ""⟩ = "True" ↔
      Event.startTime ⟨"Practice", "01/23/2026", "10:00", "01/23/2026",
        "11:00", "False", "", ""⟩ = "") ∧
    (Event.endDate ⟨"Practice", "01/23/2026", "10:00", "01/23/2026", "11:00",
        "False", "", ""⟩ ≠ "" ↔
      Event.endTime ⟨"Practice", "01/23/2026", "10:00", "01/23/2026",
        "11:00", "False", "", ""⟩ ≠ "") := by
  have h := C6_theorem "Jan\n23 Mon  10am-11am Practice" 2026 none
    [⟨"Practice", "01/23/2026", "10:00", "01/23/2026", "11:00",
      "False", "", ""⟩] [] rfl
  exact h _ (List.mem_singleton.mpr rfl)

end FVRC
